import Mathlib

/-!
# Verification of the UDF benchmark harness

A shallow embedding of the benchmark execution harness:

* `runners/base.py` — the `BenchResult` record and the
  `SystemRunner.benchmark` warmup/measurement protocol, together with
  `SystemRunner._verify_binary`;
* `bench.py` — `create_runners`, `filter_udfs` and the driver's
  case × engine sweep (`main`), plus the three-way cell rendering of
  `print_results_table`;
* `udfs.py` — the `UDFBenchmark` record and `UDFBenchmark.query_for`.

External subprocess invocations are modelled by an environment: the
`benchmark` protocol consumes a stream `env : Nat → RunOutcome` giving
the outcome (`elapsed seconds`, `optional error text`) that
`run_query` would return for the i-th invocation launched; binary
health checks consume a `ProcBehavior` describing how the engine's
version command behaves.  Wall-clock seconds are modelled as rationals.
The `float("inf")` sentinel of the Python code is `⊤ : WithTop ℚ`.
Python code that can raise an uncaught exception is embedded with
`Option`/`Except`: a `none`/`.error` value marks the exception
escaping the modelled function.
-/

/-- Outcome of one `run_query` invocation, as returned by
`SystemRunner.run_query` (`runners/base.py` lines 66-82): the measured
wall-clock seconds and `None` on success, or the truncated stderr /
"TIMEOUT" marker on failure. -/
structure RunOutcome where
  elapsed : ℚ
  err : Option String
deriving DecidableEq, Repr

/-- `BenchResult` (`runners/base.py` lines 10-17).  Field defaults match
the Python dataclass: empty `times`, infinite `median_time` and
`min_time`, no `error`. -/
structure BenchResult where
  udf_name : String
  system : String
  times : List ℚ := []
  median_time : WithTop ℚ := ⊤
  min_time : WithTop ℚ := ⊤
  error : Option String := none
deriving DecidableEq, Repr

/-- Python truthiness of the error component returned by `run_query`:
the `if err:` tests at `runners/base.py` lines 91 and 102 are true
exactly when `err` is a non-empty string — `None` and the empty string
are both falsy, so a non-zero exit whose stripped stderr is empty is
not scored as a failure by either loop. -/
def errTruthy : Option String → Bool
  | none => false
  | some e => e != ""

/-- The warmup loop of `SystemRunner.benchmark` (`runners/base.py`
lines 89-96): launch `count` invocations starting at stream index
`start`; the loop body returns the error of the first run whose `err`
is truthy (`if err:`), and otherwise keeps going. -/
def runWarmup (env : ℕ → RunOutcome) : ℕ → ℕ → Option String
  | _, 0 => none
  | start, count + 1 =>
    if errTruthy (env start).err then (env start).err
    else runWarmup env (start + 1) count

/-- The timed loop of `SystemRunner.benchmark` (`runners/base.py`
lines 99-109): launch up to `count` invocations starting at stream
index `start`, collecting elapsed times in order; stop at the first
run whose `err` is truthy (`if err:`), returning the times collected
so far together with its error.  A run whose `err` is falsy (`None`,
or the empty string from a non-zero exit with empty stripped stderr)
has its elapsed time appended and the loop continues. -/
def runTimed (env : ℕ → RunOutcome) : ℕ → ℕ → List ℚ × Option String
  | _, 0 => ([], none)
  | start, count + 1 =>
    if errTruthy (env start).err then ([], (env start).err)
    else
      let rest := runTimed env (start + 1) count
      ((env start).elapsed :: rest.1, rest.2)

/-- The elapsed times of the timed invocations at stream indices
`w, w+1, …, w+n-1` (what the timed loop collects when every run
succeeds). -/
def collectedTimes (env : ℕ → RunOutcome) (w n : ℕ) : List ℚ :=
  (List.range n).map fun i => (env (w + i)).elapsed

/-- `SystemRunner.benchmark` (`runners/base.py` lines 84-119).
Invocations are numbered from 0: warmup invocations use stream
indices `0 … warmup-1`, timed invocations continue from index
`warmup`.  The final reduction sorts the collected times ascending
(`times.sort()`), takes `times[len(times) // 2]` as the median and
`times[0]` as the minimum; both indexings are embedded with `get?`,
so a `none` result marks the uncaught `IndexError` Python raises when
`times` is empty. -/
def benchmark (udf_name system : String) (env : ℕ → RunOutcome)
    (warmup runs : ℕ) : Option BenchResult :=
  match runWarmup env 0 warmup with
  | some e =>
    some { udf_name := udf_name, system := system,
           error := some ("warmup failed: " ++ e) }
  | none =>
    match runTimed env warmup runs with
    | (times, some e) =>
      some { udf_name := udf_name, system := system, times := times,
             error := some e }
    | (times, none) =>
      let sorted := times.insertionSort (· ≤ ·)
      match sorted.get? (sorted.length / 2), sorted.get? 0 with
      | some median, some mn =>
        some { udf_name := udf_name, system := system, times := sorted,
               median_time := (median : WithTop ℚ),
               min_time := (mn : WithTop ℚ), error := none }
      | _, _ => none

/-- `UDFBenchmark` (`udfs.py` lines 6-15): a named, categorized case
holding up to one SQL query template per engine (`none` = unsupported
on that engine). -/
structure UDFBenchmark where
  name : String
  category : String
  description : String
  query_datafusion : Option String
  query_duckdb : Option String
  query_clickhouse : Option String
deriving DecidableEq, Repr

/-- `UDFBenchmark.query_for` (`udfs.py` lines 17-18):
`getattr(self, f"query_{system}")`.  The driver only applies it to the
three keys of `runner_classes`; for any other string `getattr` would
raise `AttributeError`, a path the driver never takes, embedded here
as `none`. -/
def UDFBenchmark.query_for (u : UDFBenchmark) (system : String) : Option String :=
  if system = "datafusion" then u.query_datafusion
  else if system = "duckdb" then u.query_duckdb
  else if system = "clickhouse" then u.query_clickhouse
  else none

/-- The `[udfs]` section of the TOML config as read by `filter_udfs`
(`bench.py` lines 60-63): `include` and `categories` are absent
(`None`) or a list; `exclude` defaults to the empty list. -/
structure UdfsConfig where
  «include» : Option (List String) := none
  exclude : List String := []
  categories : Option (List String) := none
deriving DecidableEq, Repr

/-- Python truthiness of an optional list: `None` and `[]` are falsy,
a non-empty list is truthy (the `if include:` / `if cli_udfs:` tests in
`filter_udfs`). -/
def listTruthy : Option (List String) → Bool
  | none => false
  | some l => !l.isEmpty

/-- `filter_udfs` (`bench.py` lines 53-82): config include-list, then
config exclude-list, then config category list, then the CLI `--udf`
names, then the CLI `--category` names, each applied (when truthy) as
a further list filter. -/
def filter_udfs (udfs : List UDFBenchmark) (config : UdfsConfig)
    (cli_udfs cli_categories : Option (List String)) : List UDFBenchmark :=
  let udfs := if listTruthy config.«include» then
    udfs.filter (fun u => (config.«include».getD []).contains u.name) else udfs
  let udfs := if !config.exclude.isEmpty then
    udfs.filter (fun u => !config.exclude.contains u.name) else udfs
  let udfs := if listTruthy config.categories then
    udfs.filter (fun u => (config.categories.getD []).contains u.category) else udfs
  let udfs := if listTruthy cli_udfs then
    udfs.filter (fun u => (cli_udfs.getD []).contains u.name) else udfs
  let udfs := if listTruthy cli_categories then
    udfs.filter (fun u => (cli_categories.getD []).contains u.category) else udfs
  udfs

/-- The outcome of an attempt to launch an external process: the launch
fails (`FileNotFoundError`), or the process runs for `duration`
seconds and finishes with a `returncode` and a `stderr` text. -/
inductive ProcBehavior where
  | missing
  | runsFor (duration : ℚ) (returncode : Int) (stderr : String)
deriving DecidableEq, Repr

/-- The Python exceptions relevant to runner construction:
`RuntimeError` (what `_verify_binary` raises and `create_runners`
catches), `subprocess.TimeoutExpired`, `FileNotFoundError`, and the
`KeyError` from `sys_cfg["binary"]`. -/
inductive PyError where
  | runtimeError (msg : String)
  | timeoutExpired
  | fileNotFound
  | keyError
deriving DecidableEq, Repr

/-- `subprocess.run(cmd, ..., timeout=t)`: raises `FileNotFoundError`
when the executable is missing, raises `TimeoutExpired` when the
process runs longer than `t` seconds, and otherwise returns the
completed process. -/
def subprocessRun (timeout : ℚ) (beh : ProcBehavior) :
    Except PyError (Int × String) :=
  match beh with
  | .missing => .error .fileNotFound
  | .runsFor d rc stderr =>
    if timeout < d then .error .timeoutExpired else .ok (rc, stderr)

/-- `SystemRunner._verify_binary` (`runners/base.py` lines 28-44):
run the version command with a fixed `timeout=10`; a non-zero exit
raises `RuntimeError ("<name> binary '<binary>' failed: <stderr
stripped>")`; `FileNotFoundError` is caught and re-raised as
`RuntimeError ("<name> binary '<binary>' not found")`; any other
exception (in particular `TimeoutExpired`) propagates unchanged. -/
def verify_binary (name binary : String) (beh : ProcBehavior) :
    Except PyError Unit :=
  match subprocessRun 10 beh with
  | .ok (rc, stderr) =>
    if rc ≠ 0 then
      .error (.runtimeError
        (name ++ " binary \x27" ++ binary ++ "\x27 failed: " ++ stderr.trim))
    else .ok ()
  | .error .fileNotFound =>
    .error (.runtimeError (name ++ " binary \x27" ++ binary ++ "\x27 not found"))
  | .error e => .error e

/-- True when the engine's 10-second-bounded version check completes
with exit code 0 (a healthy engine). -/
def checkHealthy (beh : ProcBehavior) : Bool :=
  match subprocessRun 10 beh with
  | .ok (rc, _) => rc == 0
  | .error _ => false

/-- True when the engine's version check completes but exits
non-zero. -/
def checkNonzeroExit (beh : ProcBehavior) : Bool :=
  match subprocessRun 10 beh with
  | .ok (rc, _) => rc != 0
  | .error _ => false

/-- True when the engine's version check exceeds the 10-second
bound. -/
def checkTimesOut (beh : ProcBehavior) : Bool :=
  match subprocessRun 10 beh with
  | .error .timeoutExpired => true
  | _ => false

/-- One `[systems.<name>]` config entry as read by `create_runners`
(`bench.py` lines 42-46): `enabled` defaults to true, `binary` is the
configured executable path (`none` models the key being absent, in
which case `sys_cfg["binary"]` raises `KeyError`). -/
structure SystemConfig where
  enabled : Bool := true
  binary : Option String := none
deriving DecidableEq, Repr

/-- A constructed runner: the verified binary and the dataset path it
was given. -/
structure Runner where
  binary : String
  data_path : String
deriving DecidableEq, Repr

instance {ε α : Type} [DecidableEq ε] [DecidableEq α] :
    DecidableEq (Except ε α) := fun x y =>
  match x, y with
  | .ok a, .ok b =>
    if h : a = b then isTrue (by rw [h])
    else isFalse (by intro he; cases he; exact h rfl)
  | .ok _, .error _ => isFalse (by intro h; cases h)
  | .error _, .ok _ => isFalse (by intro h; cases h)
  | .error e, .error f =>
    if h : e = f then isTrue (by rw [h])
    else isFalse (by intro he; cases he; exact h rfl)

/-- Iteration order of `runner_classes` in `create_runners`
(`bench.py` lines 33-37). -/
def runnerNames : List String := ["datafusion", "duckdb", "clickhouse"]

/-- The loop body of `create_runners` for one engine name, threading
the accumulated runner mapping: skipped engines leave the mapping
unchanged; a construction that raises `RuntimeError` is caught (the
engine is skipped with a warning); any other exception propagates. -/
def createRunnersStep (config : String → SystemConfig) (data_path : String)
    (only : Option (List String)) (checkEnv : String → ProcBehavior)
    (acc : List (String × Runner)) (name : String) :
    Except PyError (List (String × Runner)) :=
  if listTruthy only ∧ ¬ (only.getD []).contains name then .ok acc
  else if ¬ (config name).enabled then .ok acc
  else
    match (config name).binary with
    | none => .error .keyError
    | some b =>
      match verify_binary name b (checkEnv name) with
      | .ok () => .ok (acc ++ [(name, ⟨b, data_path⟩)])
      | .error (.runtimeError _) => .ok acc
      | .error e => .error e

/-- `create_runners` (`bench.py` lines 29-50): fold the per-engine
step over the fixed engine order, starting from an empty mapping. -/
def create_runners (config : String → SystemConfig) (data_path : String)
    (only : Option (List String)) (checkEnv : String → ProcBehavior) :
    Except PyError (List (String × Runner)) :=
  runnerNames.foldlM (createRunnersStep config data_path only checkEnv) []

/-- `SystemRunner.table_ref` (`runners/base.py` lines 62-64) together
with the `ClickHouseRunner.table_ref` override
(`runners/clickhouse.py`): the quoted dataset path, or ClickHouse's
`file(..., Parquet)` wrapper. -/
def table_ref (name : String) (r : Runner) : String :=
  if name = "clickhouse" then "file(\x27" ++ r.data_path ++ "\x27, Parquet)"
  else "\x27" ++ r.data_path ++ "\x27"

/-- `query.format(table=runner.table_ref())` (`bench.py` line 236):
substitute the `{table}` placeholder of a query template. -/
def substTable (query tref : String) : String :=
  query.replace "\x7btable\x7d" tref

/-- The inner loop of `main` (`bench.py` lines 231-243) for one
benchmark case: for each engine, look up the case's query template;
when absent, skip the engine entirely (no entry is stored, no adapter
call is made); otherwise substitute the table reference and invoke
the runner, abstracted as the oracle
`bench udf_name system_name sql`. -/
def runRow (bench : String → String → String → BenchResult)
    (systems : List (String × Runner)) (u : UDFBenchmark) :
    List (String × BenchResult) :=
  systems.filterMap fun p =>
    (u.query_for p.1).map fun q =>
      (p.1, bench u.name p.1 (substTable q (table_ref p.1 p.2)))

/-- The sweep of `main` (`bench.py` lines 227-243): one row per case
in catalog order, each keyed by the case's name. -/
def runMatrix (bench : String → String → String → BenchResult)
    (udfs : List UDFBenchmark) (systems : List (String × Runner)) :
    List (String × List (String × BenchResult)) :=
  udfs.map fun u => (u.name, runRow bench systems u)

/-- `all_results[udf_name].get(system)`: dictionary lookup with
last-assignment-wins semantics, hence the lookups on the reversed
association lists. -/
def resultFor (matrix : List (String × List (String × BenchResult)))
    (uname sname : String) : Option BenchResult :=
  match matrix.reverse.lookup uname with
  | none => none
  | some row => row.reverse.lookup sname

/-- The three-way cell rendering of `print_results_table`
(`bench.py` lines 126-134): a successful result shows its median
time, a failed result shows "ERROR", a missing entry shows "n/a". -/
inductive CellDisplay where
  | time (median : WithTop ℚ)
  | error
  | notApplicable
deriving DecidableEq, Repr

/-- `if r and not r.error: … elif r and r.error: … else: …`
(`bench.py` lines 126-134). -/
def cellDisplay (r : Option BenchResult) : CellDisplay :=
  match r with
  | some res => if res.error.isSome then .error else .time res.median_time
  | none => .notApplicable

/-- The `upper` catalog entry (`udfs.py` lines 66-67, via `_scalar`). -/
def upperUdf : UDFBenchmark :=
  { name := "upper", category := "string", description := "upper(column)",
    query_datafusion := some "SELECT COUNT(upper(str_medium)) FROM \x7btable\x7d",
    query_duckdb := some "SELECT COUNT(upper(str_medium)) FROM \x7btable\x7d",
    query_clickhouse := some "SELECT COUNT(upper(str_medium)) FROM \x7btable\x7d" }

/-- The `lower` catalog entry (`udfs.py` lines 68-69, via `_scalar`). -/
def lowerUdf : UDFBenchmark :=
  { name := "lower", category := "string", description := "lower(column)",
    query_datafusion := some "SELECT COUNT(lower(str_medium)) FROM \x7btable\x7d",
    query_duckdb := some "SELECT COUNT(lower(str_medium)) FROM \x7btable\x7d",
    query_clickhouse := some "SELECT COUNT(lower(str_medium)) FROM \x7btable\x7d" }

/-- The `initcap` catalog entry (`udfs.py` lines 70-71, via `_scalar`):
the one case whose DuckDB template is absent (`None`). -/
def initcapUdf : UDFBenchmark :=
  { name := "initcap", category := "string", description := "initcap(column)",
    query_datafusion := some "SELECT COUNT(initcap(str_medium)) FROM \x7btable\x7d",
    query_duckdb := none,
    query_clickhouse := some "SELECT COUNT(initCap(str_medium)) FROM \x7btable\x7d" }

/-- Concrete invocation stream for witnesses: the first invocation
succeeds in 1 s, the second fails with error text "boom", later ones
succeed. -/
def envWarmupFail : ℕ → RunOutcome := fun i =>
  if i = 0 then ⟨1, none⟩ else if i = 1 then ⟨2, some "boom"⟩ else ⟨3, none⟩

/-- Concrete invocation stream for witnesses: one warmup and five
timed runs, all successful, with the timed elapsed times
0.30, 0.10, 0.50, 0.20, 0.40 seconds. -/
def envFiveRuns : ℕ → RunOutcome := fun i =>
  ⟨[0, mkRat 3 10, mkRat 1 10, mkRat 1 2, mkRat 1 5, mkRat 2 5].getD i 0, none⟩

/-- Concrete invocation stream for witnesses: warmup and the first two
timed runs succeed (0.30 s and 0.10 s), the third timed run fails with
error text "disk full", nothing after it matters. -/
def envThirdFails : ℕ → RunOutcome := fun i =>
  if i = 3 then ⟨5, some "disk full"⟩
  else ⟨[0, mkRat 3 10, mkRat 1 10].getD i 7, none⟩

/-- Invocation stream whose first invocation exits non-zero with empty
stripped stderr (`run_query` returns the falsy error string ""), while
every later invocation succeeds in 2 s. -/
def envEmptyErrWarmup : ℕ → RunOutcome := fun i =>
  if i = 0 then ⟨1, some ""⟩ else ⟨2, none⟩

/-- Invocation stream for one warmup and two timed runs where the
first timed run (stream index 1) exits non-zero with empty stripped
stderr after 5 s and every other invocation succeeds in 7 s. -/
def envEmptyErrTimed : ℕ → RunOutcome := fun i =>
  if i = 1 then ⟨5, some ""⟩ else ⟨7, none⟩

/-- All-success invocation stream (every run takes 1 s). -/
def envAllOk : ℕ → RunOutcome := fun _ => ⟨1, none⟩

/-- Concrete engine behaviours: DataFusion's version check exits with
code 1, DuckDB's is healthy, ClickHouse's runs for 11 s and therefore
exceeds the 10-second bound. -/
def envMixedChecks : String → ProcBehavior := fun name =>
  if name = "datafusion" then .runsFor 1 1 "bad install"
  else if name = "duckdb" then .runsFor 1 0 ""
  else .runsFor 11 0 ""

/-- Concrete engine behaviours with no timeout: DataFusion's version
check exits with code 1, DuckDB's and ClickHouse's are healthy. -/
def envNoTimeoutChecks : String → ProcBehavior := fun name =>
  if name = "datafusion" then .runsFor 1 1 "bad install"
  else .runsFor 1 0 ""

/-- A config enabling all three engines with configured binaries. -/
def allEnabledConfig : String → SystemConfig := fun name =>
  { enabled := true, binary := some name }

/-- The engine-selection test of `create_runners` for one name: the
engine is processed (rather than skipped) when it passes the `only`
restriction and its config is enabled. -/
def engineSelected (only : Option (List String)) (config : String → SystemConfig)
    (name : String) : Bool :=
  (!listTruthy only || (only.getD []).contains name) && (config name).enabled

/-- The runner entries `create_runners` accumulates for a given list of
engine names when no health check times out: one entry per selected
engine whose 10-second-bounded version check exits 0. -/
def builtRunners (config : String → SystemConfig) (data_path : String)
    (only : Option (List String)) (checkEnv : String → ProcBehavior) :
    List String → List (String × Runner)
  | [] => []
  | name :: rest =>
    (if engineSelected only config name && checkHealthy (checkEnv name) then
      [(name, ⟨((config name).binary).getD "", data_path⟩)]
    else [])
    ++ builtRunners config data_path only checkEnv rest

/-- A constant benchmark oracle (every invocation yields the default
`BenchResult` for the pair). -/
def benchConst : String → String → String → BenchResult :=
  fun un sn _ => { udf_name := un, system := sn }

/-- A benchmark oracle that differs from `benchConst` exactly at the
(initcap, duckdb) pair. -/
def benchAlt : String → String → String → BenchResult :=
  fun un sn _ =>
    if un = "initcap" ∧ sn = "duckdb" then
      { udf_name := un, system := sn, error := some "never run" }
    else { udf_name := un, system := sn }

theorem runWarmup_eq_none (env : ℕ → RunOutcome) (s c : ℕ)
    (h : ∀ i < c, errTruthy (env (s + i)).err = false) :
    runWarmup env s c = none := by
  induction c generalizing s with
  | zero => rfl
  | succ c ih =>
    have h0 : errTruthy (env s).err = false := by simpa using h 0 (Nat.succ_pos c)
    rw [runWarmup, h0, if_neg Bool.false_ne_true]
    exact ih (s + 1) fun i hi => by
      have hx : s + 1 + i = s + (i + 1) := by omega
      rw [hx]
      exact h (i + 1) (by omega)

theorem runWarmup_eq_some (env : ℕ → RunOutcome) (s c j : ℕ) (e : String)
    (hj : j < c) (hok : ∀ i < j, errTruthy (env (s + i)).err = false)
    (hf : (env (s + j)).err = some e) (he : e ≠ "") :
    runWarmup env s c = some e := by
  induction c generalizing s j with
  | zero => omega
  | succ c ih =>
    cases j with
    | zero =>
      have h0 : (env s).err = some e := by simpa using hf
      have ht : errTruthy (env s).err = true := by
        rw [h0]
        simpa [errTruthy] using he
      rw [runWarmup, ht, if_pos rfl, h0]
    | succ j =>
      have h0 : errTruthy (env s).err = false := by
        simpa using hok 0 (Nat.succ_pos j)
      rw [runWarmup, h0, if_neg Bool.false_ne_true]
      refine ih (s + 1) j (by omega) (fun i hi => ?_) ?_
      · have hx : s + 1 + i = s + (i + 1) := by omega
        rw [hx]
        exact hok (i + 1) (by omega)
      · have hx : s + 1 + j = s + (j + 1) := by omega
        rw [hx]
        exact hf

theorem runTimed_all_ok (env : ℕ → RunOutcome) (s c : ℕ)
    (h : ∀ i < c, errTruthy (env (s + i)).err = false) :
    runTimed env s c = ((List.range c).map fun i => (env (s + i)).elapsed, none) := by
  induction c generalizing s with
  | zero => rfl
  | succ c ih =>
    have h0 : errTruthy (env s).err = false := by simpa using h 0 (Nat.succ_pos c)
    rw [runTimed, h0, if_neg Bool.false_ne_true]
    have hrest := ih (s + 1) fun i hi => by
      have hx : s + 1 + i = s + (i + 1) := by omega
      rw [hx]
      exact h (i + 1) (by omega)
    rw [hrest]
    refine Prod.ext ?_ rfl
    show (env s).elapsed :: _ = _
    rw [List.range_succ_eq_map, List.map_cons, List.map_map]
    refine congrArg₂ _ (by rw [Nat.add_zero]) (List.map_congr_left fun i _ => ?_)
    show (env (s + 1 + i)).elapsed = _
    have hx : s + 1 + i = s + (i + 1) := by omega
    rw [hx]
    rfl

theorem runTimed_fail (env : ℕ → RunOutcome) (s c j : ℕ) (e : String)
    (hj : j < c) (hok : ∀ i < j, errTruthy (env (s + i)).err = false)
    (hf : (env (s + j)).err = some e) (he : e ≠ "") :
    runTimed env s c = ((List.range j).map fun i => (env (s + i)).elapsed, some e) := by
  induction c generalizing s j with
  | zero => omega
  | succ c ih =>
    cases j with
    | zero =>
      have h0 : (env s).err = some e := by simpa using hf
      have ht : errTruthy (env s).err = true := by
        rw [h0]
        simpa [errTruthy] using he
      rw [runTimed, ht, if_pos rfl, h0]
      rfl
    | succ j =>
      have h0 : errTruthy (env s).err = false := by
        simpa using hok 0 (Nat.succ_pos j)
      rw [runTimed, h0, if_neg Bool.false_ne_true]
      have hrest := ih (s + 1) j (by omega)
        (fun i hi => by
          have hx : s + 1 + i = s + (i + 1) := by omega
          rw [hx]
          exact hok (i + 1) (by omega))
        (by
          have hx : s + 1 + j = s + (j + 1) := by omega
          rw [hx]
          exact hf)
      rw [hrest]
      refine Prod.ext ?_ rfl
      show (env s).elapsed :: _ = _
      rw [List.range_succ_eq_map, List.map_cons, List.map_map]
      refine congrArg₂ _ (by rw [Nat.add_zero]) (List.map_congr_left fun i _ => ?_)
      show (env (s + 1 + i)).elapsed = _
      have hx : s + 1 + i = s + (i + 1) := by omega
      rw [hx]
      rfl

/-- C1 counterexample: a warmup invocation that fails by non-zero
exit with empty stripped stderr (`run_query` returns the falsy error
string "") does not abort `benchmark`: with one warmup and one timed
run the returned result carries no error at all and the timed
invocation has been executed — its elapsed time (2 s) is the result's
recorded time — contradicting both the "warmup failed:" error and the
"zero timed invocations" parts of the claim. -/
theorem benchmark_warmup_emptyerr_continues :
    (envEmptyErrWarmup 0).err = some ""
    ∧ benchmark "upper" "duckdb" envEmptyErrWarmup 1 1
        = some { udf_name := "upper", system := "duckdb", times := [2],
                 median_time := (2 : ℚ), min_time := (2 : ℚ),
                 error := none } := by
  decide

/-- C1 amended: for every adapter (modelled by the invocation stream),
SQL string, warmup count `w ≥ 1` and run count, if the `k`-th warmup
invocation is the first to fail with a truthy error text (non-zero
exit with non-empty stripped stderr, or timeout, which always yields
"TIMEOUT"; `k < w`), `benchmark` returns immediately a result whose
error is `"warmup failed: "` followed by the failing run's error text
and whose times sequence is empty; zero timed invocations are
executed: the returned value only depends on the stream up to
invocation `k`, so any invocation after the failing warmup (in
particular every timed one) cannot influence it.  A warmup failure
whose error text is the falsy empty string does not abort (see the
counterexample). -/
theorem benchmark_warmup_fail (nm sys : String) (env : ℕ → RunOutcome)
    (w runs k : ℕ) (e : String) (hk : k < w)
    (hok : ∀ i < k, errTruthy (env i).err = false)
    (hf : (env k).err = some e) (he : e ≠ "") :
    benchmark nm sys env w runs
      = some { udf_name := nm, system := sys, times := [],
               median_time := ⊤, min_time := ⊤,
               error := some ("warmup failed: " ++ e) }
    ∧ ∀ env' : ℕ → RunOutcome, (∀ i ≤ k, env' i = env i) →
        benchmark nm sys env' w runs = benchmark nm sys env w runs := by
  have main : ∀ env₂ : ℕ → RunOutcome,
      (∀ i < k, errTruthy (env₂ i).err = false) →
      (env₂ k).err = some e →
      benchmark nm sys env₂ w runs
        = some { udf_name := nm, system := sys, times := [],
                 median_time := ⊤, min_time := ⊤,
                 error := some ("warmup failed: " ++ e) } := by
    intro env₂ hok₂ hf₂
    have hw : runWarmup env₂ 0 w = some e :=
      runWarmup_eq_some env₂ 0 w k e hk (fun i hi => by simpa using hok₂ i hi)
        (by simpa using hf₂) he
    unfold benchmark
    rw [hw]
  refine ⟨main env hok hf, fun env' ha => ?_⟩
  rw [main env hok hf,
    main env' (fun i hi => by rw [ha i (le_of_lt hi)]; exact hok i hi)
      (by rw [ha k le_rfl]; exact hf)]

theorem benchmark_warmup_fail_witness :
    errTruthy (envWarmupFail 0).err = false
    ∧ (envWarmupFail 1).err = some "boom"
    ∧ benchmark "upper" "duckdb" envWarmupFail 2 3
        = some { udf_name := "upper", system := "duckdb", times := [],
                 median_time := ⊤, min_time := ⊤,
                 error := some ("warmup failed: " ++ "boom") } :=
  ⟨by decide, by decide,
    (benchmark_warmup_fail "upper" "duckdb" envWarmupFail 2 3 1 "boom"
      (by decide) (by decide) (by decide) (by decide)).1⟩

/-- C10: with run count 0 and every warmup invocation succeeding
(including warmup count 0), `benchmark` does not return a
`BenchResult`: the median computation indexes the empty times list
(`times[len(times) // 2]` with `times = []`), an uncaught
`IndexError`, modelled as the `none` result. -/
theorem benchmark_zero_runs (nm sys : String) (env : ℕ → RunOutcome) (w : ℕ)
    (hok : ∀ i < w, (env i).err = none) :
    benchmark nm sys env w 0 = none := by
  have hw : runWarmup env 0 w = none :=
    runWarmup_eq_none env 0 w fun i hi => by simp [hok i hi, errTruthy]
  unfold benchmark
  rw [hw]
  rfl

theorem benchmark_zero_runs_witness :
    benchmark "upper" "duckdb" envAllOk 0 0 = none :=
  benchmark_zero_runs "upper" "duckdb" envAllOk 0 (by decide)

/-- C2 counterexample: a timed invocation that fails by non-zero exit
with empty stripped stderr (falsy error string "") is not treated as a
failure: with runs = 2 and the first timed run failing that way, its
elapsed value (5 s) is appended to `times`, the second timed
invocation is still launched (its 7 s elapsed also appears), and the
returned result carries no error — contradicting "the failing run's
elapsed value is not included", "error field is set" and "no
invocation after the k-th is ever launched". -/
theorem benchmark_timed_emptyerr_continues :
    (envEmptyErrTimed 1).err = some ""
    ∧ benchmark "upper" "duckdb" envEmptyErrTimed 1 2
        = some { udf_name := "upper", system := "duckdb", times := [5, 7],
                 median_time := (7 : ℚ), min_time := (5 : ℚ),
                 error := none } := by
  decide

/-- C2 amended: for every run count `n` and every `k = j + 1` with
`1 ≤ k ≤ n`, if the first `k - 1 = j` timed invocations complete
without a truthy error and the `k`-th fails with a truthy error text
(non-zero exit with non-empty stripped stderr, or timeout),
`benchmark` returns a result whose times sequence is exactly the `j`
elapsed values collected before the failure (in collection order, the
failing run's elapsed value excluded), whose error is the failing
run's error, and no invocation after the `k`-th timed one is ever
launched: the returned value only depends on the stream up to
invocation `w + j`, the `k`-th timed invocation.  A timed run failing
with the falsy empty error string is instead scored as a success (see
the counterexample). -/
theorem benchmark_timed_fail (nm sys : String) (env : ℕ → RunOutcome)
    (w n j : ℕ) (e : String) (hj : j < n)
    (hwok : ∀ i < w, errTruthy (env i).err = false)
    (hok : ∀ i < j, errTruthy (env (w + i)).err = false)
    (hf : (env (w + j)).err = some e) (he : e ≠ "") :
    benchmark nm sys env w n
      = some { udf_name := nm, system := sys,
               times := collectedTimes env w j,
               median_time := ⊤, min_time := ⊤, error := some e }
    ∧ ∀ env' : ℕ → RunOutcome, (∀ i ≤ w + j, env' i = env i) →
        benchmark nm sys env' w n = benchmark nm sys env w n := by
  have main : ∀ env₂ : ℕ → RunOutcome,
      (∀ i < w, errTruthy (env₂ i).err = false) →
      (∀ i < j, errTruthy (env₂ (w + i)).err = false) →
      (env₂ (w + j)).err = some e →
      (∀ i < j, (env₂ (w + i)).elapsed = (env (w + i)).elapsed) →
      benchmark nm sys env₂ w n
        = some { udf_name := nm, system := sys,
                 times := collectedTimes env w j,
                 median_time := ⊤, min_time := ⊤, error := some e } := by
    intro env₂ hwok₂ hok₂ hf₂ hel₂
    have hw : runWarmup env₂ 0 w = none :=
      runWarmup_eq_none env₂ 0 w fun i hi => by simpa using hwok₂ i hi
    have ht : runTimed env₂ w n
        = ((List.range j).map fun i => (env₂ (w + i)).elapsed, some e) :=
      runTimed_fail env₂ w n j e hj hok₂ hf₂ he
    unfold benchmark
    rw [hw, ht]
    have : ((List.range j).map fun i => (env₂ (w + i)).elapsed)
        = collectedTimes env w j :=
      List.map_congr_left fun i hi => hel₂ i (List.mem_range.mp hi)
    rw [this]
  refine ⟨main env hwok hok hf (fun _ _ => rfl), fun env' ha => ?_⟩
  rw [main env hwok hok hf (fun _ _ => rfl),
    main env' (fun i hi => by rw [ha i (by omega)]; exact hwok i hi)
      (fun i hi => by rw [ha (w + i) (by omega)]; exact hok i hi)
      (by rw [ha (w + j) le_rfl]; exact hf)
      (fun i hi => by rw [ha (w + i) (by omega)])]

theorem benchmark_timed_fail_witness :
    errTruthy (envThirdFails 0).err = false
    ∧ errTruthy (envThirdFails 1).err = false
    ∧ errTruthy (envThirdFails 2).err = false
    ∧ (envThirdFails 3).err = some "disk full"
    ∧ benchmark "upper" "duckdb" envThirdFails 1 5
        = some { udf_name := "upper", system := "duckdb",
                 times := [mkRat 3 10, mkRat 1 10],
                 median_time := ⊤, min_time := ⊤,
                 error := some "disk full" } :=
  ⟨by decide, by decide, by decide, by decide,
    ((benchmark_timed_fail "upper" "duckdb" envThirdFails 1 5 2 "disk full"
      (by decide) (by decide) (by decide) (by decide)
      (by decide)).1).trans (by decide)⟩

theorem get?_eq_some_getD (l : List ℚ) (k : ℕ) (h : k < l.length) :
    l.get? k = some (l.getD k 0) := by
  rw [List.getD_eq_getElem?_getD, List.get?_eq_getElem?,
    List.getElem?_eq_getElem h]
  rfl

/-- C3: when all `n ≥ 1` timed invocations succeed, `benchmark` sorts
the `n` collected elapsed times ascending and returns a result whose
`times` is the full sorted sequence, whose `median_time` is the sorted
element at index `⌊n / 2⌋` (lower median, no averaging) and whose
`min_time` is the first sorted element.  The witness instantiates the
claim's example: 5 runs with raw times 0.30, 0.10, 0.50, 0.20, 0.40
give median 0.30 and minimum 0.10. -/
theorem benchmark_success (nm sys : String) (env : ℕ → RunOutcome) (w n : ℕ)
    (hn : 1 ≤ n) (hok : ∀ i < w + n, (env i).err = none) :
    benchmark nm sys env w n =
      some { udf_name := nm, system := sys,
             times := (collectedTimes env w n).insertionSort (· ≤ ·),
             median_time :=
               (((collectedTimes env w n).insertionSort (· ≤ ·)).getD (n / 2) 0 : ℚ),
             min_time :=
               (((collectedTimes env w n).insertionSort (· ≤ ·)).getD 0 0 : ℚ),
             error := none } := by
  have hw : runWarmup env 0 w = none :=
    runWarmup_eq_none env 0 w fun i hi => by
      simp [hok i (by omega : i < w + n), errTruthy]
  have ht : runTimed env w n = (collectedTimes env w n, none) := by
    have := runTimed_all_ok env w n fun i hi => by
      simp [hok (w + i) (by omega : w + i < w + n), errTruthy]
    rw [this]
    rfl
  have hlen : ((collectedTimes env w n).insertionSort (· ≤ ·)).length = n := by
    rw [List.length_insertionSort]
    simp [collectedTimes]
  unfold benchmark
  rw [hw, ht]
  dsimp only
  rw [hlen, get?_eq_some_getD _ _ (by rw [hlen]; omega),
    get?_eq_some_getD _ _ (by rw [hlen]; omega)]

theorem benchmark_success_witness :
    benchmark "upper" "duckdb" envFiveRuns 1 5
      = some { udf_name := "upper", system := "duckdb",
               times := [mkRat 1 10, mkRat 1 5, mkRat 3 10, mkRat 2 5, mkRat 1 2],
               median_time := (mkRat 3 10 : ℚ),
               min_time := (mkRat 1 10 : ℚ),
               error := none } :=
  (benchmark_success "upper" "duckdb" envFiveRuns 1 5 (by decide)
    (by decide)).trans (by decide)

/-- C4: every `BenchResult` returned by `benchmark` satisfies: if its
error is set, `median_time` and `min_time` are both the infinite
sentinel `⊤`; if its error is not set, `min_time ≤ median_time` and
both are elements of the recorded `times` sequence. -/
theorem benchResult_invariant (nm sys : String) (env : ℕ → RunOutcome)
    (w n : ℕ) (r : BenchResult)
    (h : benchmark nm sys env w n = some r) :
    (r.error ≠ none → r.median_time = ⊤ ∧ r.min_time = ⊤)
    ∧ (r.error = none →
        r.min_time ≤ r.median_time
        ∧ (∃ t ∈ r.times, (t : WithTop ℚ) = r.median_time)
        ∧ (∃ t ∈ r.times, (t : WithTop ℚ) = r.min_time)) := by
  unfold benchmark at h
  split at h
  · injection h with h
    subst h
    exact ⟨fun _ => ⟨rfl, rfl⟩, fun hc => by simp at hc⟩
  · split at h
    · injection h with h
      subst h
      exact ⟨fun _ => ⟨rfl, rfl⟩, fun hc => by simp at hc⟩
    · next ts hteq =>
      dsimp only at h
      split at h
      · next median mn hm h0 =>
        injection h with h
        subst h
        refine ⟨fun hc => absurd rfl hc, fun _ => ?_⟩
        have hsorted : List.Sorted (· ≤ ·) (ts.insertionSort (· ≤ ·)) :=
          List.sorted_insertionSort _ ts
        have hmedmem : median ∈ ts.insertionSort (· ≤ ·) := List.get?_mem hm
        have hmnmem : mn ∈ ts.insertionSort (· ≤ ·) := List.get?_mem h0
        have hle : mn ≤ median := by
          rw [List.get?_zero] at h0
          cases hS : ts.insertionSort (· ≤ ·) with
          | nil => rw [hS] at h0; simp at h0
          | cons a t =>
            rw [hS] at h0 hmedmem hsorted
            simp only [List.head?_cons, Option.some.injEq] at h0
            subst h0
            rcases List.mem_cons.mp hmedmem with heq | hmem
            · exact le_of_eq heq.symm
            · exact (List.sorted_cons.mp hsorted).1 median hmem
        exact ⟨WithTop.coe_le_coe.mpr hle, ⟨median, hmedmem, rfl⟩,
          ⟨mn, hmnmem, rfl⟩⟩
      · exact absurd h (by simp)

theorem benchResult_invariant_witness :
    benchmark "upper" "duckdb" envFiveRuns 1 5
        = some { udf_name := "upper", system := "duckdb",
                 times := [mkRat 1 10, mkRat 1 5, mkRat 3 10, mkRat 2 5, mkRat 1 2],
                 median_time := (mkRat 3 10 : ℚ),
                 min_time := (mkRat 1 10 : ℚ),
                 error := none }
    ∧ (({ udf_name := "upper", system := "duckdb",
          times := [mkRat 1 10, mkRat 1 5, mkRat 3 10, mkRat 2 5, mkRat 1 2],
          median_time := (mkRat 3 10 : ℚ),
          min_time := (mkRat 1 10 : ℚ),
          error := none } : BenchResult).error = none →
        ({ udf_name := "upper", system := "duckdb",
           times := [mkRat 1 10, mkRat 1 5, mkRat 3 10, mkRat 2 5, mkRat 1 2],
           median_time := (mkRat 3 10 : ℚ),
           min_time := (mkRat 1 10 : ℚ),
           error := none } : BenchResult).min_time
          ≤ ({ udf_name := "upper", system := "duckdb",
               times := [mkRat 1 10, mkRat 1 5, mkRat 3 10, mkRat 2 5, mkRat 1 2],
               median_time := (mkRat 3 10 : ℚ),
               min_time := (mkRat 1 10 : ℚ),
               error := none } : BenchResult).median_time) :=
  ⟨(benchmark_success "upper" "duckdb" envFiveRuns 1 5 (by decide)
      (by decide)).trans (by decide),
    fun _ =>
      ((benchResult_invariant "upper" "duckdb" envFiveRuns 1 5 _
        ((benchmark_success "upper" "duckdb" envFiveRuns 1 5 (by decide)
          (by decide)).trans (by decide))).2 rfl).1⟩

/-- C5 counterexample: the command-line case-name list does not
override the config filters.  With catalog `[upper, lower]`, a config
include-list of `["lower"]` and the CLI case-name list `["upper"]`,
the code returns the empty set, while the catalog cases named by the
CLI list are exactly `[upper]`. -/
theorem filter_udfs_cli_no_override :
    filter_udfs [upperUdf, lowerUdf] { «include» := some ["lower"] }
      (some ["upper"]) none = []
    ∧ [upperUdf, lowerUdf].filter (fun u => ["upper"].contains u.name)
        = [upperUdf] := by
  decide

/-- C5 amended: filtering applies the config include-list, the config
exclude-list, the config category allow-list, the CLI case-name list
and the CLI category list in this fixed order, each (when non-empty)
as a further narrowing filter; the command-line filters intersect
with — rather than override — the file-based filters: a case survives
exactly when it passes every active filter. -/
theorem filter_udfs_mem (udfs : List UDFBenchmark) (config : UdfsConfig)
    (cli_udfs cli_categories : Option (List String)) (u : UDFBenchmark) :
    u ∈ filter_udfs udfs config cli_udfs cli_categories ↔
      u ∈ udfs
      ∧ (listTruthy config.«include» = true →
          (config.«include».getD []).contains u.name = true)
      ∧ config.exclude.contains u.name = false
      ∧ (listTruthy config.categories = true →
          (config.categories.getD []).contains u.category = true)
      ∧ (listTruthy cli_udfs = true → (cli_udfs.getD []).contains u.name = true)
      ∧ (listTruthy cli_categories = true →
          (cli_categories.getD []).contains u.category = true) := by
  unfold filter_udfs
  split_ifs with h1 h2 h3 h4 h5 <;>
    simp_all [List.mem_filter, List.isEmpty_iff] <;>
    tauto

/-- C6 counterexample: with include-list `{"upper","lower"}` and
exclude-list `{"lower"}` the resulting case set is not always
`{"upper"}`: a configured category allow-list (here `["hash"]`, while
`upper` has category `"string"`) removes `upper` as well, and so does
a CLI case-name list (here `["lower"]`). -/
theorem filter_udfs_include_exclude_cex :
    filter_udfs [upperUdf, lowerUdf]
      { «include» := some ["upper", "lower"], exclude := ["lower"],
        categories := some ["hash"] } none none = []
    ∧ filter_udfs [upperUdf, lowerUdf]
      { «include» := some ["upper", "lower"], exclude := ["lower"] }
      (some ["lower"]) none = [] := by
  decide

/-- C6 amended: for every catalog, a config with include-list
`{"upper","lower"}`, exclude-list `{"lower"}` and no category
allow-list, with no CLI filters, yields exactly the catalog cases
named `"upper"` (so exactly `{upper}` whenever the catalog contains
that case). -/
theorem filter_udfs_include_exclude (udfs : List UDFBenchmark) :
    filter_udfs udfs
      { «include» := some ["upper", "lower"], exclude := ["lower"],
        categories := none } none none
      = udfs.filter fun u => u.name == "upper" := by
  show ((udfs.filter fun u => (["upper", "lower"].contains u.name)).filter
      fun u => !(["lower"].contains u.name)) = _
  rw [List.filter_filter]
  refine List.filter_congr fun u _ => ?_
  cases hu : u.name == "upper" <;> cases hl : u.name == "lower"
  · simp [List.contains, List.elem, hu, hl]
  · simp [List.contains, List.elem, hu, hl]
  · simp [List.contains, List.elem, hu, hl]
  · exact absurd ((eq_of_beq hu).symm.trans (eq_of_beq hl)) (by decide)

/-- C7 (code bug): of the three construction-failure cases, only two
raise the `RuntimeError` that `create_runners` catches.  A missing
executable and a non-zero version check do; but when the version check
exceeds the fixed 10-second bound, `subprocess.run` raises
`subprocess.TimeoutExpired`, which `_verify_binary`'s
`except FileNotFoundError` does not convert and `create_runners`'s
`except RuntimeError` does not catch: the fold propagates the
exception out of the construction phase, contradicting the claim that
in every such case the error is of the type the driver catches. -/
theorem verify_binary_timeout_uncaught :
    verify_binary "duckdb" "/usr/bin/duckdb" .missing
        = .error (.runtimeError
            "duckdb binary \x27/usr/bin/duckdb\x27 not found")
    ∧ (∃ msg, verify_binary "duckdb" "/usr/bin/duckdb"
        (.runsFor 1 1 "bad install") = .error (.runtimeError msg))
    ∧ verify_binary "duckdb" "/usr/bin/duckdb" (.runsFor 11 0 "")
        = .error .timeoutExpired
    ∧ createRunnersStep allEnabledConfig "bench_data.parquet" none
        (fun _ => .runsFor 1 1 "bad install") [] "duckdb" = .ok []
    ∧ createRunnersStep allEnabledConfig "bench_data.parquet" none
        (fun _ => .runsFor 11 0 "") [] "duckdb" = .error .timeoutExpired := by
  refine ⟨by decide, ⟨_, rfl⟩, by decide, by decide, by decide⟩

/-- C8 counterexample: an engine failing its health check by non-zero
exit (datafusion) is dropped and another configured engine (duckdb) is
healthy, yet an exception still propagates past the construction
phase, because the third engine's health check times out and
`TimeoutExpired` is not the `RuntimeError` that `create_runners`
catches. -/
theorem create_runners_timeout_escapes :
    checkNonzeroExit (envMixedChecks "datafusion") = true
    ∧ checkHealthy (envMixedChecks "duckdb") = true
    ∧ create_runners allEnabledConfig "bench_data.parquet" none envMixedChecks
        = .error .timeoutExpired := by
  refine ⟨by decide, by decide, by decide⟩

theorem engineSelected_skip (only : Option (List String))
    (config : String → SystemConfig) (dp : String)
    (checkEnv : String → ProcBehavior) (acc : List (String × Runner))
    (name : String) (hsel : engineSelected only config name = false) :
    createRunnersStep config dp only checkEnv acc name = .ok acc := by
  unfold engineSelected at hsel
  rw [Bool.and_eq_false_iff] at hsel
  unfold createRunnersStep
  rcases hsel with hsel | hsel
  · rw [Bool.or_eq_false_iff] at hsel
    rw [if_pos]
    exact ⟨by simpa using hsel.1, by simpa using hsel.2⟩
  · by_cases hfirst : listTruthy only = true ∧ ¬((only.getD []).contains name = true)
    · rw [if_pos hfirst]
    · rw [if_neg hfirst, if_pos (by simp [hsel])]

theorem engineSelected_run (only : Option (List String))
    (config : String → SystemConfig) (dp : String)
    (checkEnv : String → ProcBehavior) (acc : List (String × Runner))
    (name b : String) (hsel : engineSelected only config name = true)
    (hb : (config name).binary = some b) :
    createRunnersStep config dp only checkEnv acc name
      = match verify_binary name b (checkEnv name) with
        | .ok () => .ok (acc ++ [(name, ⟨b, dp⟩)])
        | .error (.runtimeError _) => .ok acc
        | .error e => .error e := by
  unfold engineSelected at hsel
  rw [Bool.and_eq_true] at hsel
  obtain ⟨honly, hen⟩ := hsel
  rw [Bool.or_eq_true] at honly
  unfold createRunnersStep
  rw [if_neg, if_neg, hb]
  · simp [hen]
  · rcases honly with h | h
    · simp only [Bool.not_eq_true'] at h
      simp [h]
    · intro hcond
      exact hcond.2 h

theorem verify_binary_cases (name b : String) (beh : ProcBehavior)
    (hnoto : checkTimesOut beh = false) :
    (checkHealthy beh = true ∧ verify_binary name b beh = .ok ())
    ∨ (checkHealthy beh = false
        ∧ ∃ msg, verify_binary name b beh = .error (.runtimeError msg)) := by
  cases beh with
  | missing =>
    right
    exact ⟨rfl, _, rfl⟩
  | runsFor d rc stderr =>
    by_cases hd : (10 : ℚ) < d
    · exfalso
      simp [checkTimesOut, subprocessRun, hd] at hnoto
    · by_cases hrc : rc = 0
      · left
        subst hrc
        simp [checkHealthy, verify_binary, subprocessRun, hd]
      · right
        have hs : subprocessRun 10 (ProcBehavior.runsFor d rc stderr)
            = .ok (rc, stderr) := by simp [subprocessRun, hd]
        refine ⟨by simp [checkHealthy, hs, hrc],
          name ++ " binary \x27" ++ b ++ "\x27 failed: " ++ stderr.trim, ?_⟩
        unfold verify_binary
        rw [hs]
        dsimp only
        rw [if_pos hrc]

theorem createRunners_foldlM (config : String → SystemConfig) (dp : String)
    (only : Option (List String)) (checkEnv : String → ProcBehavior)
    (l : List String)
    (hbin : ∀ name ∈ l, engineSelected only config name = true →
        ((config name).binary).isSome = true)
    (hnoto : ∀ name ∈ l, checkTimesOut (checkEnv name) = false) :
    ∀ acc : List (String × Runner),
      l.foldlM (createRunnersStep config dp only checkEnv) acc
        = .ok (acc ++ builtRunners config dp only checkEnv l) := by
  induction l with
  | nil => intro acc; simp [builtRunners]; rfl
  | cons name rest ih =>
    intro acc
    have ihr := ih (fun n hn hs => hbin n (by simp [hn]) hs)
      (fun n hn => hnoto n (by simp [hn]))
    rw [List.foldlM_cons]
    by_cases hsel : engineSelected only config name = true
    · obtain ⟨b, hb⟩ := Option.isSome_iff_exists.mp (hbin name (by simp) hsel)
      rw [engineSelected_run only config dp checkEnv acc name b hsel hb]
      rcases verify_binary_cases name b (checkEnv name)
          (hnoto name (by simp)) with ⟨hh, hv⟩ | ⟨hh, msg, hv⟩
      · rw [hv]
        show rest.foldlM _ (acc ++ [(name, ⟨b, dp⟩)]) = _
        rw [builtRunners, hsel, hh, hb]
        show _ = Except.ok (acc ++ ([(name, ⟨b, dp⟩)]
          ++ builtRunners config dp only checkEnv rest))
        rw [← List.append_assoc]
        exact ihr _
      · rw [hv]
        show rest.foldlM _ acc = _
        rw [builtRunners, hsel, hh]
        show _ = Except.ok (acc
          ++ ([] ++ builtRunners config dp only checkEnv rest))
        rw [List.nil_append]
        exact ihr _
    · have hself : engineSelected only config name = false := by
        simpa using hsel
      rw [engineSelected_skip only config dp checkEnv acc name hself]
      show rest.foldlM _ acc = _
      rw [builtRunners, hself]
      show _ = Except.ok (acc
        ++ ([] ++ builtRunners config dp only checkEnv rest))
      rw [List.nil_append]
      exact ihr _

theorem checkHealthy_eq_false_of_nonzero (beh : ProcBehavior)
    (h : checkNonzeroExit beh = true) : checkHealthy beh = false := by
  unfold checkNonzeroExit at h
  unfold checkHealthy
  cases hs : subprocessRun 10 beh with
  | ok p =>
    rw [hs] at h
    obtain ⟨rc, stderr⟩ := p
    simp only [bne_iff_ne, ne_eq] at h
    simp [h]
  | error e => rw [hs] at h

theorem builtRunners_lookup_nonzero (config : String → SystemConfig)
    (dp : String) (only : Option (List String))
    (checkEnv : String → ProcBehavior) (name : String)
    (h : checkNonzeroExit (checkEnv name) = true) :
    ∀ l : List String,
      (builtRunners config dp only checkEnv l).lookup name = none := by
  intro l
  induction l with
  | nil => rfl
  | cons hd rest ih =>
    rw [builtRunners]
    by_cases hc : (engineSelected only config hd
        && checkHealthy (checkEnv hd)) = true
    · rw [if_pos hc]
      have hne : hd ≠ name := by
        intro heq
        subst heq
        have hfalse := checkHealthy_eq_false_of_nonzero _ h
        rw [Bool.and_eq_true] at hc
        rw [hfalse] at hc
        exact Bool.false_ne_true hc.2
      have hbeq : (name == hd) = false := beq_eq_false_iff_ne.mpr (Ne.symm hne)
      simp only [List.singleton_append, List.lookup, hbeq]
      exact ih
    · rw [if_neg hc]
      simpa using ih

theorem builtRunners_lookup_healthy (config : String → SystemConfig)
    (dp : String) (only : Option (List String))
    (checkEnv : String → ProcBehavior) (name : String)
    (hsel : engineSelected only config name = true)
    (hh : checkHealthy (checkEnv name) = true) :
    ∀ l : List String, name ∈ l →
      ∃ r, (builtRunners config dp only checkEnv l).lookup name = some r := by
  intro l
  induction l with
  | nil => intro hmem; cases hmem
  | cons hd rest ih =>
    intro hmem
    rw [builtRunners]
    by_cases hname : hd = name
    · subst hname
      rw [if_pos (by rw [hsel, hh]; rfl)]
      refine ⟨⟨((config hd).binary).getD "", dp⟩, ?_⟩
      simp [List.lookup]
    · have hmem' : name ∈ rest := by
        rcases List.mem_cons.mp hmem with h | h
        · exact absurd h.symm hname
        · exact h
      by_cases hc : (engineSelected only config hd
          && checkHealthy (checkEnv hd)) = true
      · rw [if_pos hc]
        obtain ⟨r, hr⟩ := ih hmem'
        refine ⟨r, ?_⟩
        have hbeq : (name == hd) = false :=
          beq_eq_false_iff_ne.mpr (Ne.symm hname)
        simp only [List.singleton_append, List.lookup, hbeq]
        exact hr
      · rw [if_neg hc]
        simpa using ih hmem'

/-- C8 amended: an engine whose health-check invocation exits non-zero
is excluded from the runners mapping entirely (its `RuntimeError` is
caught, it is dropped with a warning), and — provided no configured
engine's health check times out and every selected engine has a
configured binary — no exception propagates past the construction
phase: `create_runners` returns a mapping omitting every
non-zero-exit engine and containing an entry for every selected
healthy engine, so the sweep continues with the remaining engines. -/
theorem create_runners_drops_nonzero (config : String → SystemConfig)
    (dp : String) (only : Option (List String))
    (checkEnv : String → ProcBehavior)
    (hbin : ∀ name ∈ runnerNames, engineSelected only config name = true →
        ((config name).binary).isSome = true)
    (hnoto : ∀ name ∈ runnerNames, checkTimesOut (checkEnv name) = false) :
    ∃ m, create_runners config dp only checkEnv = .ok m
      ∧ (∀ name, checkNonzeroExit (checkEnv name) = true →
          m.lookup name = none)
      ∧ ∀ name ∈ runnerNames, engineSelected only config name = true →
          checkHealthy (checkEnv name) = true →
            ∃ r, m.lookup name = some r := by
  refine ⟨builtRunners config dp only checkEnv runnerNames, ?_, ?_, ?_⟩
  · have hfold :=
      createRunners_foldlM config dp only checkEnv runnerNames hbin hnoto []
    rw [List.nil_append] at hfold
    exact hfold
  · intro name h
    exact builtRunners_lookup_nonzero config dp only checkEnv name h runnerNames
  · intro name hmem hsel hh
    exact builtRunners_lookup_healthy config dp only checkEnv name hsel hh
      runnerNames hmem

theorem create_runners_drops_nonzero_witness :
    (∀ name ∈ runnerNames,
      engineSelected none allEnabledConfig name = true →
        ((allEnabledConfig name).binary).isSome = true)
    ∧ (∀ name ∈ runnerNames,
        checkTimesOut (envNoTimeoutChecks name) = false)
    ∧ ∃ m, create_runners allEnabledConfig "bench_data.parquet" none
          envNoTimeoutChecks = .ok m
        ∧ (∀ name, checkNonzeroExit (envNoTimeoutChecks name) = true →
            m.lookup name = none)
        ∧ ∀ name ∈ runnerNames,
            engineSelected none allEnabledConfig name = true →
              checkHealthy (envNoTimeoutChecks name) = true →
                ∃ r, m.lookup name = some r :=
  ⟨by decide, by decide,
    create_runners_drops_nonzero allEnabledConfig "bench_data.parquet" none
      envNoTimeoutChecks (by decide) (by decide)⟩

theorem lookup_eq_some_of_forall {α : Type} (k : String) (v : α) :
    ∀ l : List (String × α), (k, v) ∈ l →
      (∀ p ∈ l, p.1 = k → p.2 = v) → l.lookup k = some v := by
  intro l
  induction l with
  | nil => intro hmem _; cases hmem
  | cons hd tl ih =>
    intro hmem huni
    obtain ⟨k1, v1⟩ := hd
    by_cases hk : k1 = k
    · have hv : v1 = v := huni (k1, v1) (by simp) hk
      subst hk
      subst hv
      simp [List.lookup]
    · have hbeq : (k == k1) = false := beq_eq_false_iff_ne.mpr (Ne.symm hk)
      simp only [List.lookup, hbeq]
      refine ih ?_ fun p hp => huni p (by simp [hp])
      rcases List.mem_cons.mp hmem with h | h
      · exact absurd (congrArg Prod.fst h).symm hk
      · exact h

theorem lookup_eq_none_of_forall {α : Type} (k : String) :
    ∀ l : List (String × α), (∀ p ∈ l, p.1 ≠ k) → l.lookup k = none := by
  intro l
  induction l with
  | nil => intro _; rfl
  | cons hd tl ih =>
    intro h
    obtain ⟨k1, v1⟩ := hd
    have hbeq : (k == k1) = false :=
      beq_eq_false_iff_ne.mpr (Ne.symm (h (k1, v1) (by simp)))
    simp only [List.lookup, hbeq]
    exact ih fun p hp => h p (by simp [hp])

/-- C9: for every benchmark case and engine whose query template for
that case is absent, the driver never calls that engine's adapter —
no command is built and no process is run, formalized as: the whole
results matrix is unchanged under any modification of the benchmark
oracle at that (case, engine) pair — and the (case, engine) cell is
recorded as "not applicable" (`n/a`), a display state distinct from
both a successful time and "ERROR". -/
theorem driver_not_applicable (udfs : List UDFBenchmark)
    (systems : List (String × Runner)) (u : UDFBenchmark) (s : String)
    (bench bench' : String → String → String → BenchResult)
    (hu : u ∈ udfs) (huniq : ∀ v ∈ udfs, v.name = u.name → v = u)
    (habsent : u.query_for s = none)
    (hagree : ∀ un sn sql, ¬(un = u.name ∧ sn = s) →
        bench un sn sql = bench' un sn sql) :
    resultFor (runMatrix bench udfs systems) u.name s = none
    ∧ cellDisplay (resultFor (runMatrix bench udfs systems) u.name s)
        = .notApplicable
    ∧ runMatrix bench udfs systems = runMatrix bench' udfs systems
    ∧ (∀ med, CellDisplay.notApplicable ≠ .time med)
    ∧ CellDisplay.notApplicable ≠ .error := by
  have hcell : resultFor (runMatrix bench udfs systems) u.name s = none := by
    unfold resultFor
    have hmat : (runMatrix bench udfs systems).reverse.lookup u.name
        = some (runRow bench systems u) := by
      refine lookup_eq_some_of_forall u.name (runRow bench systems u) _ ?_ ?_
      · rw [List.mem_reverse]
        exact List.mem_map.mpr ⟨u, hu, rfl⟩
      · intro p hp hpk
        rw [List.mem_reverse] at hp
        obtain ⟨v, hv, rfl⟩ := List.mem_map.mp hp
        rw [huniq v hv hpk]
    rw [hmat]
    refine lookup_eq_none_of_forall s _ fun p hp => ?_
    rw [List.mem_reverse] at hp
    obtain ⟨q, hq, hmap⟩ := List.mem_filterMap.mp hp
    intro hps
    cases hqf : u.query_for q.1 with
    | none => rw [hqf] at hmap; cases hmap
    | some t =>
      rw [hqf] at hmap
      injection hmap with hmap
      rw [← hmap] at hps
      rw [hps] at hqf
      rw [habsent] at hqf
      cases hqf
  have hmatrix : runMatrix bench udfs systems
      = runMatrix bench' udfs systems := by
    unfold runMatrix
    refine List.map_congr_left fun v hv => ?_
    have hrow : runRow bench systems v = runRow bench' systems v := by
      unfold runRow
      refine List.filterMap_congr fun p _ => ?_
      cases hqf : v.query_for p.1 with
      | none => rfl
      | some q =>
        simp only [Option.map_some']
        have hb : bench v.name p.1 (substTable q (table_ref p.1 p.2))
            = bench' v.name p.1 (substTable q (table_ref p.1 p.2)) := by
          refine hagree _ _ _ fun hand => ?_
          obtain ⟨hn, hs'⟩ := hand
          have hvu := huniq v hv hn
          subst hvu
          rw [hs'] at hqf
          rw [habsent] at hqf
          cases hqf
        rw [hb]
    rw [hrow]
  refine ⟨hcell, by rw [hcell]; rfl, hmatrix, ?_, ?_⟩
  · intro med h
    cases h
  · intro h
    cases h

theorem driver_not_applicable_witness :
    initcapUdf.query_for "duckdb" = none
    ∧ resultFor (runMatrix benchConst [initcapUdf]
        [("duckdb", ⟨"duckdb", "bench_data.parquet"⟩)]) "initcap" "duckdb"
        = none
    ∧ cellDisplay (resultFor (runMatrix benchConst [initcapUdf]
        [("duckdb", ⟨"duckdb", "bench_data.parquet"⟩)]) "initcap" "duckdb")
        = .notApplicable
    ∧ runMatrix benchConst [initcapUdf]
        [("duckdb", ⟨"duckdb", "bench_data.parquet"⟩)]
      = runMatrix benchAlt [initcapUdf]
        [("duckdb", ⟨"duckdb", "bench_data.parquet"⟩)] := by
  have h := driver_not_applicable [initcapUdf]
    [("duckdb", ⟨"duckdb", "bench_data.parquet"⟩)] initcapUdf "duckdb"
    benchConst benchAlt (by decide) (by decide) (by decide)
    (fun un sn sql hne => by
      have hne2 : ¬(un = "initcap" ∧ sn = "duckdb") := hne
      unfold benchConst benchAlt
      rw [if_neg hne2])
  exact ⟨by decide, h.1, h.2.1, h.2.2.1⟩
